import Mathlib

/-!
Verification development for the gighub repository.

This file shallowly embeds the core of the application — the credential
store queries (db/query.sql), the authentication HTTP handlers (main.go),
and the schema-migration runner (db Setup/runMigrations) — as executable
Lean definitions, and proves or refutes the specification's claims about
them.

Conventions:
  * SQL NULL-able columns become Option values; SQL equality against a
    NULL operand is false (see sqlTokEq), matching SQLite semantics.
  * Timestamps are Nat; CURRENT_TIMESTAMP is passed in as a now argument.
  * bcrypt hashing/comparison and the session-token hash are abstracted
    as function parameters: the Go handlers only branch on their results.
  * Fallible store operations return Except DbError.
-/

namespace Gighub

/-- User row of the users table: id INTEGER PRIMARY KEY AUTOINCREMENT,
email TEXT NOT NULL UNIQUE, password_hash TEXT NOT NULL,
verification_token (nullable), verified_at (nullable).  The created_at
column (DEFAULT CURRENT_TIMESTAMP) is never read by any query and is
omitted. -/
structure User where
  id : Nat
  email : String
  passwordHash : String
  verificationToken : Option String
  verifiedAt : Option Nat
  deriving Repr, DecidableEq

/-- Session row of the sessions table: token_hash TEXT PRIMARY KEY,
user_id INTEGER NOT NULL, expiry DATETIME NOT NULL. -/
structure Session where
  tokenHash : String
  userId : Nat
  expiry : Nat
  deriving Repr, DecidableEq

/-- The relational store as seen by the credential-store and session
queries.  nextUserId models the AUTOINCREMENT counter of users.id. -/
structure Db where
  users : List User
  sessions : List Session
  nextUserId : Nat
  deriving Repr, DecidableEq

/-- Store errors: conflict is a UNIQUE-constraint violation, notFound is
sql.ErrNoRows from a :one query that matched no row. -/
inductive DbError where
  | conflict
  | notFound
  deriving Repr, DecidableEq

/-- CreateUser (db/query.sql): INSERT INTO users (email, password_hash,
verification_token) VALUES (?, ?, ?) RETURNING *.  Fails with a
uniqueness conflict when the email is already present. -/
def CreateUser (db : Db) (email passwordHash : String)
    (verificationToken : Option String) : Except DbError (User × Db) :=
  if db.users.any (fun u => u.email = email) then
    .error .conflict
  else
    let u : User :=
      { id := db.nextUserId, email := email, passwordHash := passwordHash,
        verificationToken := verificationToken, verifiedAt := none }
    .ok (u, { db with users := db.users ++ [u], nextUserId := db.nextUserId + 1 })

/-- GetUserByEmail (db/query.sql): SELECT * FROM users WHERE email = ?
LIMIT 1.  Absence is sql.ErrNoRows, modelled as none. -/
def GetUserByEmail (db : Db) (email : String) : Option User :=
  db.users.find? (fun u => u.email = email)

/-- SQL equality on a nullable column: a comparison with a NULL operand
is not true (NULL = x evaluates to NULL in SQLite). -/
def sqlTokEq : Option String → Option String → Bool
  | some a, some b => a = b
  | _, _ => false

/-- Row predicate of the VerifyUser UPDATE: WHERE verification_token = ?
AND verified_at IS NULL. -/
def matchesVerify (tok : Option String) (u : User) : Bool :=
  sqlTokEq u.verificationToken tok && u.verifiedAt.isNone

/-- VerifyUser (db/query.sql): UPDATE users SET verified_at =
CURRENT_TIMESTAMP, verification_token = NULL WHERE verification_token = ?
AND verified_at IS NULL RETURNING id.  All matching rows are updated; the
sqlc :one wrapper returns the first returned id, or sql.ErrNoRows when no
row matched. -/
def VerifyUser (db : Db) (tok : Option String) (now : Nat) :
    Except DbError (Nat × Db) :=
  match db.users.find? (matchesVerify tok) with
  | none => .error .notFound
  | some u =>
    let users2 := db.users.map (fun w =>
      if matchesVerify tok w then
        { w with verifiedAt := some now, verificationToken := none }
      else w)
    .ok (u.id, { db with users := users2 })

/-- Effect of a VerifyUser call whose return values are discarded, as in
the OAuth callback of main.go (errors are ignored, the update still
applies). -/
def applyVerify (db : Db) (tok : Option String) (now : Nat) : Db :=
  match VerifyUser db tok now with
  | .ok r => r.2
  | .error _ => db

/-- Response of the login handler: either an http.Error with message and
status, or the successful redirect to /guestbook carrying the user id put
into the session. -/
inductive LoginResp where
  | httpError (msg : String) (status : Nat)
  | redirect (loc : String) (userId : Nat)
  deriving Repr, DecidableEq

/-- Login handler (main.go, r.Post /login): look up by email — absent
gives the generic 401; an unverified account gives a distinct 401 telling
the user to verify, before any password check; a failed bcrypt comparison
gives the generic 401 again; otherwise the session is established and the
user is redirected.  compare h p models
bcrypt.CompareHashAndPassword(h, p) succeeding. -/
def loginHandler (compare : String → String → Bool) (db : Db)
    (email password : String) : LoginResp :=
  match GetUserByEmail db email with
  | none => .httpError ("Invalid email or password") 401
  | some user =>
    if user.verifiedAt.isNone then
      .httpError ("Please verify your email before logging in.") 401
    else if compare user.passwordHash password then
      .redirect ("/guestbook") user.id
    else
      .httpError ("Invalid email or password") 401

/-- Response of the signup handler. -/
inductive SignupResp where
  | httpError (msg : String) (status : Nat)
  | okPage (body : String)
  deriving Repr, DecidableEq

/-- Signup handler (main.go, r.Post /signup): hash the password with
bcrypt (abstracted as bhash), generate a random hex token (passed in as
rawToken), and persist the user unverified via CreateUser; the
verification email is dispatched asynchronously and does not affect the
stored state.  On CreateUser failure the handler reports a 500. -/
def signupHandler (bhash : String → String) (db : Db)
    (email password rawToken : String) : SignupResp × Db :=
  match CreateUser db email (bhash password) (some rawToken) with
  | .error _ => (.httpError ("Error creating user") 500, db)
  | .ok (_, db2) =>
    (.okPage ("User created! Please check your email to verify your account."), db2)

/-- Response of the verify handler. -/
inductive VerifyResp where
  | httpError (msg : String) (status : Nat)
  | okPage (body : String)
  deriving Repr, DecidableEq

/-- Verify handler (main.go, r.Get /verify): empty token is a 400;
VerifyUser failing with sql.ErrNoRows yields the single generic message
regardless of why no row matched; success yields the confirmation page. -/
def verifyHandler (db : Db) (token : String) (now : Nat) : VerifyResp × Db :=
  if token = "" then
    (.httpError ("Missing token") 400, db)
  else
    match VerifyUser db (some token) now with
    | .error _ => (.httpError ("Invalid or expired token") 400, db)
    | .ok (_, db2) =>
      (.okPage ("Email verified successfully! You can now login."), db2)

/-- Response of the OAuth callback handler; the final store state is
carried in each constructor. -/
inductive OAuthResp where
  | httpError (msg : String) (status : Nat) (db : Db)
  | redirect (loc : String) (userId : Nat) (db : Db)
  deriving Repr, DecidableEq

/-- OAuth callback handler (main.go, r.Get /auth/provider/callback) after
provider completion: look up the provider email; if absent, CreateUser
with a random password hash and random token and, ignoring errors,
VerifyUser on that token — but any CreateUser failure is answered with a
500 and nothing else; if present but unverified, VerifyUser on the stored
token (errors ignored); then redirect to /guestbook as the resolved user.
The lookup-then-create pair is not atomic: db0 is the store state at the
GetUserByEmail read and db1 the state at the CreateUser write, so a
concurrent duplicate callback may have committed in between (db1 may
differ from db0). -/
def oauthCallback (db0 db1 : Db) (gEmail pwHash tok : String) (now : Nat) :
    OAuthResp :=
  match GetUserByEmail db0 gEmail with
  | none =>
    match CreateUser db1 gEmail pwHash (some tok) with
    | .error _ => .httpError ("Failed to create user") 500 db1
    | .ok (user, db2) =>
      .redirect ("/guestbook") user.id (applyVerify db2 (some tok) now)
  | some user =>
    if user.verifiedAt.isNone then
      .redirect ("/guestbook") user.id (applyVerify db0 user.verificationToken now)
    else
      .redirect ("/guestbook") user.id db0

/-- CreateSession (db/query.sql): INSERT INTO sessions (token_hash,
user_id, expiry) VALUES (?, ?, ?).  token_hash is the primary key, so an
insert with an existing hash fails with a conflict. -/
def CreateSession (db : Db) (tokenHash : String) (userId expiry : Nat) :
    Except DbError Db :=
  if db.sessions.any (fun s => s.tokenHash = tokenHash) then
    .error .conflict
  else
    .ok { db with sessions := db.sessions ++ [⟨tokenHash, userId, expiry⟩] }

/-- GetSession (db/query.sql): SELECT sessions.*, users.email FROM
sessions JOIN users ON sessions.user_id = users.id WHERE token_hash = ?
AND expiry > CURRENT_TIMESTAMP LIMIT 1.  The expiry filter is strict; the
join means the row is only produced when the owning user exists. -/
def GetSession (db : Db) (tokenHash : String) (now : Nat) :
    Option (Session × String) :=
  match db.sessions.find? (fun s => decide (s.tokenHash = tokenHash ∧ now < s.expiry)) with
  | none => none
  | some s => (db.users.find? (fun u => u.id = s.userId)).map (fun u => (s, u.email))

/-- DeleteSession (db/query.sql): DELETE FROM sessions WHERE
token_hash = ?.  Deleting an absent row is a no-op. -/
def DeleteSession (db : Db) (tokenHash : String) : Db :=
  { db with sessions := db.sessions.filter (fun s => decide (s.tokenHash ≠ tokenHash)) }

/-- Modelled from the spec: the session-manager operation establish of
spec 4.4 — no Go function in src implements it (src holds only the
CreateSession query it issues); per the spec it hashes the fresh raw
token (hashFn) and stores the hash with expiry now + lifetime. -/
def establish (hashFn : String → String) (db : Db) (userId : Nat)
    (rawToken : String) (now lifetime : Nat) : Except DbError Db :=
  CreateSession db (hashFn rawToken) userId (now + lifetime)

/-- Modelled from the spec: the session-manager operation validate of
spec 4.4 — src holds only the GetSession query it issues; it hashes the
presented raw token and performs the expiry-filtered lookup. -/
def validate (hashFn : String → String) (db : Db) (rawToken : String)
    (now : Nat) : Option (Session × String) :=
  GetSession db (hashFn rawToken) now

/-- Modelled from the spec: the session-manager operation destroy of
spec 4.4 — src holds only the DeleteSession query it issues. -/
def destroy (hashFn : String → String) (db : Db) (rawToken : String) : Db :=
  DeleteSession db (hashFn rawToken)

/-!
Migration runner (db package, Setup/runMigrations).

The schema itself is abstract: a run is parameterised by a schema type σ
and an executor exec : σ → String → Option σ modelling SQLite executing a
script's statements inside the open transaction (none = statement error,
causing tx.Rollback).  A MigStore holds the current schema value together
with the schema_migrations records (the version column; applied_at is
never read).  The transaction wrapping one script — execute statements,
INSERT the version, commit, with rollback on either failure — becomes the
all-or-nothing applyMigration.
-/

/-- Migration script as listed by the embedded FS: file name and SQL
content. -/
structure Script where
  name : String
  content : String
  deriving Repr, DecidableEq

/-- Store state seen by the migration runner: the schema (abstract) and
the version values recorded in schema_migrations, in insertion order. -/
structure MigStore (σ : Type) where
  schema : σ
  schemaMigrations : List Int
  deriving Repr, DecidableEq

/-- Digit-string accumulator for atoi. -/
def digitsAcc : List Char → Nat → Option Nat
  | [], acc => some acc
  | c :: cs, acc =>
    if c.isDigit then digitsAcc cs (acc * 10 + (c.toNat - ('0').toNat))
    else none

/-- Digits-only parse: none on the empty list or any non-digit. -/
def digitsToNat : List Char → Option Nat
  | [] => none
  | c :: cs => digitsAcc (c :: cs) 0

/-- Translation of Go strconv.Atoi restricted to its observable result
here: optional sign followed by one or more decimal digits, anything else
an error. -/
def atoi (s : String) : Option Int :=
  match s.toList with
  | '-' :: rest => (digitsToNat rest).map (fun n => -(n : Int))
  | '+' :: rest => (digitsToNat rest).map (fun n => (n : Int))
  | cs => (digitsToNat cs).map (fun n => (n : Int))

/-- Leading segment of a file name before the first underscore, i.e.
strings.Split(name, "_")[0]. -/
def takeUntilUnderscore : List Char → List Char
  | [] => []
  | c :: cs => if c = '_' then [] else c :: takeUntilUnderscore cs

/-- Version prefix of a migration file name: strconv.Atoi of the part
before the first underscore; none means the file is silently skipped. -/
def parseVersion (name : String) : Option Int :=
  atoi (String.mk (takeUntilUnderscore name.toList))

/-- COALESCE(MAX(version), 0) over the recorded versions. -/
def maxVersion (l : List Int) : Int :=
  l.foldr max 0

/-- One migration transaction (runMigrations loop body): run the script's
statements and insert its version into schema_migrations, committing both
together; a statement error or a version-insert error (primary-key
violation) rolls the whole transaction back, leaving the store exactly as
it was, and surfaces the wrapped error message. -/
def applyMigration {σ : Type} (exec : σ → String → Option σ)
    (st : MigStore σ) (s : Script) (v : Int) : Except String (MigStore σ) :=
  match exec st.schema s.content with
  | none => .error (("error running migration ") ++ s.name)
  | some schema2 =>
    if st.schemaMigrations.contains v then
      .error ("error updating schema_migrations")
    else
      .ok { schema := schema2, schemaMigrations := st.schemaMigrations ++ [v] }

/-- Loop of runMigrations over the directory listing: cur is the
current version computed once before the loop; files without a parseable
numeric token are skipped, files at or below cur are skipped, and a
failing transaction aborts the whole run (fail-fast), returning the store
as of the last committed transaction together with the error. -/
def migLoop {σ : Type} (exec : σ → String → Option σ) (cur : Int)
    (st : MigStore σ) : List Script → MigStore σ × Option String
  | [] => (st, none)
  | s :: rest =>
    match parseVersion s.name with
    | none => migLoop exec cur st rest
    | some v =>
      if cur < v then
        match applyMigration exec st s v with
        | .error e => (st, some e)
        | .ok st2 => migLoop exec cur st2 rest
      else
        migLoop exec cur st rest

/-- runMigrations (db package): ensure schema_migrations exists (in this
model the records field always exists), read
COALESCE(MAX(version), 0) once, then process the listed scripts. -/
def runMigrations {σ : Type} (exec : σ → String → Option σ)
    (st : MigStore σ) (entries : List Script) : MigStore σ × Option String :=
  migLoop exec (maxVersion st.schemaMigrations) st entries

/-- Byte-wise ordering on names, as Go compares strings; file names here
are ASCII so this coincides with comparing the character lists. -/
def lexLe : List Char → List Char → Bool
  | [], _ => true
  | _ :: _, [] => false
  | a :: as, b :: bs =>
    if a < b then true
    else if b < a then false
    else lexLe as bs

/-- Name ordering on scripts. -/
def nameLe (a b : Script) : Bool :=
  lexLe a.name.toList b.name.toList

/-- Insertion step of the name sort. -/
def insertScript (s : Script) : List Script → List Script
  | [] => [s]
  | t :: ts => if nameLe s t then s :: t :: ts else t :: insertScript s ts

/-- The order in which embed.FS ReadDir lists the migration directory:
sorted by file name (fs.ReadDir guarantees lexical name order). -/
def sortScripts : List Script → List Script
  | [] => []
  | s :: ss => insertScript s (sortScripts ss)

/-- The runner as invoked on the embedded migrations directory: the
directory entries arrive sorted by name. -/
def runMigrationsFS {σ : Type} (exec : σ → String → Option σ)
    (st : MigStore σ) (files : List Script) : MigStore σ × Option String :=
  runMigrations exec st (sortScripts files)

/-- Ascending (strictly increasing) check used to state ordering
properties of the application order of migrations. -/
def isAscending : List Int → Bool
  | [] => true
  | [_] => true
  | a :: b :: rest => decide (a < b) && isAscending (b :: rest)

/-!
Schema model for the DDL actually shipped in the migration scripts,
used to state what the persisted layout contains after the runner
completes.
-/

/-- Column of a table: name, nullability, and whether it is the primary
key or carries a UNIQUE constraint. -/
structure Column where
  name : String
  nullable : Bool
  primaryKey : Bool
  unique : Bool
  deriving Repr, DecidableEq

/-- Foreign-key clause of a table. -/
structure ForeignKey where
  col : String
  refTable : String
  refCol : String
  onDeleteCascade : Bool
  deriving Repr, DecidableEq

/-- Table: name, columns, foreign keys. -/
structure Table where
  name : String
  columns : List Column
  foreignKeys : List ForeignKey
  deriving Repr, DecidableEq

/-- The users table as created by 002_create_auth_tables.sql: id INTEGER
PRIMARY KEY AUTOINCREMENT, email TEXT NOT NULL UNIQUE, password_hash TEXT
NOT NULL, created_at DATETIME DEFAULT CURRENT_TIMESTAMP. -/
def usersTable002 : Table :=
  { name := "users",
    columns :=
      [ { name := "id", nullable := false, primaryKey := true, unique := true },
        { name := "email", nullable := false, primaryKey := false, unique := true },
        { name := "password_hash", nullable := false, primaryKey := false, unique := false },
        { name := "created_at", nullable := true, primaryKey := false, unique := false } ],
    foreignKeys := [] }

/-- The sessions table of 002_create_auth_tables.sql: token_hash TEXT
PRIMARY KEY, user_id INTEGER NOT NULL, expiry DATETIME NOT NULL,
FOREIGN KEY (user_id) REFERENCES users(id) ON DELETE CASCADE. -/
def sessionsTable : Table :=
  { name := "sessions",
    columns :=
      [ { name := "token_hash", nullable := false, primaryKey := true, unique := true },
        { name := "user_id", nullable := false, primaryKey := false, unique := false },
        { name := "expiry", nullable := false, primaryKey := false, unique := false } ],
    foreignKeys := [ { col := "user_id", refTable := "users", refCol := "id", onDeleteCascade := true } ] }

/-- The password_reset_tokens table of 002_create_auth_tables.sql, with
the same shape as sessions. -/
def passwordResetTokensTable : Table :=
  { name := "password_reset_tokens",
    columns :=
      [ { name := "token_hash", nullable := false, primaryKey := true, unique := true },
        { name := "user_id", nullable := false, primaryKey := false, unique := false },
        { name := "expiry", nullable := false, primaryKey := false, unique := false } ],
    foreignKeys := [ { col := "user_id", refTable := "users", refCol := "id", onDeleteCascade := true } ] }

/-- The schema_migrations table as created by runMigrations itself:
version INTEGER PRIMARY KEY, applied_at DATETIME DEFAULT
CURRENT_TIMESTAMP. -/
def schemaMigrationsTable : Table :=
  { name := "schema_migrations",
    columns :=
      [ { name := "version", nullable := false, primaryKey := true, unique := true },
        { name := "applied_at", nullable := true, primaryKey := false, unique := false } ],
    foreignKeys := [] }

/-- ALTER TABLE ... ADD COLUMN: fails when the table is absent. -/
def addColumn (ts : List Table) (tname : String) (c : Column) : Option (List Table) :=
  if ts.any (fun t => t.name = tname) then
    some (ts.map (fun t => if t.name = tname then { t with columns := t.columns ++ [c] } else t))
  else
    none

/-- DDL executor for the repository's migration scripts, keyed by script
content tag: 002 creates the three auth tables (failing when one already
exists, as CREATE TABLE does), 003 adds the two nullable verification
columns to users. -/
def ddlApply (ts : List Table) (content : String) : Option (List Table) :=
  if content = "002_create_auth_tables" then
    if ts.any (fun t => t.name = "users" ∨ t.name = "sessions" ∨ t.name = "password_reset_tokens") then
      none
    else
      some (ts ++ [usersTable002, sessionsTable, passwordResetTokensTable])
  else if content = "003_add_verification" then
    (addColumn ts ("users")
        { name := "verification_token", nullable := true, primaryKey := false, unique := false }).bind
      (fun ts2 => addColumn ts2 ("users")
        { name := "verified_at", nullable := true, primaryKey := false, unique := false })
  else
    none

/-- The 002 script as embedded (db/migrations/002_create_auth_tables.sql). -/
def script002 : Script := ⟨"002_create_auth_tables.sql", "002_create_auth_tables"⟩

/-- Modelled from the spec: the migration that adds
users.verification_token and users.verified_at is missing from src (the
migrations directory holds only 002_create_auth_tables.sql, while
db/query.sql reads and writes both columns); per spec section 6 both are
nullable columns of users.  Its version follows 002. -/
def script003 : Script := ⟨"003_add_verification_columns.sql", "003_add_verification"⟩

/-- The embedded migration files relevant to the auth schema. -/
def gighubMigrationFiles : List Script := [script002, script003]

/-- A fresh store (no tables, no migration records). -/
def emptySchemaStore : MigStore (List Table) := ⟨[], []⟩

/-- One complete run of the migration runner on a fresh store. -/
def gighubMigrationRun : MigStore (List Table) × Option String :=
  runMigrationsFS ddlApply emptySchemaStore gighubMigrationFiles

/-- The persisted layout after the runner completes: the
schema_migrations table the runner creates up front, plus everything the
scripts created. -/
def gighubSchema : List Table :=
  schemaMigrationsTable :: gighubMigrationRun.1.schema

/-- Lookup of a table by name. -/
def findTable (ts : List Table) (n : String) : Option Table :=
  ts.find? (fun t => t.name = n)

/-- Column presence by name. -/
def hasCol (t : Table) (n : String) : Bool :=
  t.columns.any (fun c => c.name == n)

/-- Nullable column presence by name. -/
def hasNullableCol (t : Table) (n : String) : Bool :=
  t.columns.any (fun c => c.name == n && c.nullable)

/-- Unique column presence by name. -/
def hasUniqueCol (t : Table) (n : String) : Bool :=
  t.columns.any (fun c => c.name == n && c.unique)

/-- Primary-key column presence by name. -/
def hasPKCol (t : Table) (n : String) : Bool :=
  t.columns.any (fun c => c.name == n && c.primaryKey)

/-- Cascading foreign-key presence. -/
def hasCascadeFK (t : Table) (cn rt : String) : Bool :=
  t.foreignKeys.any (fun f => f.col == cn && f.refTable == rt && f.onDeleteCascade)

/-- Named check of one table of a schema. -/
def tableCheck (ts : List Table) (n : String) (check : Table → Bool) : Bool :=
  match findTable ts n with
  | some t => check t
  | none => false

/-!
Concrete instances used by witnesses and counterexamples.
-/

/-- Concrete stand-in for bcrypt.GenerateFromPassword. -/
def bhash0 (p : String) : String := ("bcrypt$") ++ p

/-- Concrete stand-in for bcrypt.CompareHashAndPassword succeeding: the
hash is exactly the tagged password. -/
def cmp0 (h p : String) : Bool := h == bhash0 p

/-- Concrete stand-in for the session-token hash. -/
def hashFn0 (t : String) : String := ("sha$") ++ t

/-- An unverified user holding verification token tokA; the stored hash
matches password pw1 under cmp0. -/
def uUnverified : User := ⟨1, "a@x.com", bhash0 ("pw1"), some ("tokA"), none⟩

/-- A verified user (token cleared); the stored hash matches pw2. -/
def uVerified : User := ⟨2, "b@x.com", bhash0 ("pw2"), none, some 5⟩

/-- Store holding one unverified and one verified user. -/
def dbC1 : Db := ⟨[uUnverified, uVerified], [], 3⟩

/-- Empty store. -/
def emptyDb : Db := ⟨[], [], 1⟩

/-- Store state as committed by a winning concurrent OAuth callback for
g@x.com. -/
def dbRace : Db := ⟨[⟨1, "g@x.com", "h1", none, some 3⟩], [], 2⟩

/-- Store for the session-lifecycle witness: one verified user, no
sessions. -/
def dbSess : Db := ⟨[uVerified], [], 3⟩

/-- dbSess after establish with raw token raw at time 10 and lifetime
24. -/
def dbSess2 : Db := ⟨[uVerified], [⟨hashFn0 ("raw"), 2, 34⟩], 3⟩

/-- Executor over a transcript schema: every script succeeds, appending
its content to the transcript. -/
def execAppend : List String → String → Option (List String) :=
  fun sch c => some (sch ++ [c])

/-- Executor that fails exactly on the script whose content is bad. -/
def execFailBad : List String → String → Option (List String) :=
  fun sch c => if c = "bad" then none else some (sch ++ [c])

/-- Empty migration store over a transcript schema. -/
def emptyMigStore : MigStore (List String) := ⟨[], []⟩

/-- Migration store whose recorded maximum version is 5. -/
def migStoreV5 : MigStore (List String) := ⟨[], [5]⟩

/-- Scenario scripts 001_init.sql and 002_auth.sql. -/
def s001 : Script := ⟨"001_init.sql", "init"⟩

/-- Scenario script 002_auth.sql. -/
def s002 : Script := ⟨"002_auth.sql", "auth"⟩

/-- Script whose statements fail under execFailBad. -/
def sBad : Script := ⟨"003_bad.sql", "bad"⟩

/-- Scenario migration set. -/
def scenarioFiles : List Script := [s001, s002]

/-- First run of the scenario set on a fresh store. -/
def scenarioRun1 : MigStore (List String) × Option String :=
  runMigrationsFS execAppend emptyMigStore scenarioFiles

/-- Script named with an unpadded two-digit version. -/
def f10 : Script := ⟨"10_a.sql", "A"⟩

/-- Script named with an unpadded one-digit version that sorts after
10_a.sql in byte order. -/
def f2 : Script := ⟨"2_b.sql", "B"⟩

/-!
Helper lemmas shared by the claim theorems.
-/

/-- Helper: find? skips a first block on which the predicate is false. -/
theorem find?_append_of_none {α : Type} (p : α → Bool) (l1 l2 : List α)
    (h : ∀ x ∈ l1, p x = false) : (l1 ++ l2).find? p = l2.find? p := by
  induction l1 with
  | nil => rfl
  | cons a l ih =>
    have ha : ¬ p a = true := by
      rw [h a (List.mem_cons_self a l)]; exact Bool.false_ne_true
    rw [List.cons_append, List.find?_cons_of_neg _ ha]
    exact ih (fun x hx => h x (List.mem_cons_of_mem a hx))

/-- Helper: destructuring of a successful CreateUser. -/
theorem CreateUser_ok {db : Db} {email ph : String} {vt : Option String}
    {u : User} {db2 : Db} (h : CreateUser db email ph vt = .ok (u, db2)) :
    u.verificationToken = vt ∧ db2.users = db.users ++ [u] := by
  unfold CreateUser at h
  split at h
  · simp at h
  · rw [Except.ok.injEq, Prod.mk.injEq] at h
    obtain ⟨hu, hdb⟩ := h
    constructor
    · rw [← hu]
    · rw [← hdb, ← hu]

/-- Helper: destructuring of a successful applyMigration. -/
theorem applyMigration_ok {σ : Type} {exec : σ → String → Option σ}
    {st : MigStore σ} {s : Script} {v : Int} {st2 : MigStore σ}
    (h : applyMigration exec st s v = .ok st2) :
    st2.schemaMigrations = st.schemaMigrations ++ [v] := by
  unfold applyMigration at h
  cases he : exec st.schema s.content with
  | none => rw [he] at h; cases h
  | some sch2 =>
    rw [he] at h
    dsimp only at h
    by_cases hc : st.schemaMigrations.contains v = true
    · rw [if_pos hc] at h; cases h
    · rw [if_neg hc] at h
      injection h with h2
      rw [← h2]

/-- Helper: the loop only ever appends version records, and only with
versions above the once-computed current version. -/
theorem migLoop_records {σ : Type} (exec : σ → String → Option σ) (cur : Int) :
    ∀ (l : List Script) (st : MigStore σ),
      ∃ app, (migLoop exec cur st l).1.schemaMigrations = st.schemaMigrations ++ app ∧
        ∀ v ∈ app, cur < v := by
  intro l
  induction l with
  | nil => intro st; exact ⟨[], by simp [migLoop], by simp⟩
  | cons s rest ih =>
    intro st
    cases hp : parseVersion s.name with
    | none => simpa [migLoop, hp] using ih st
    | some v =>
      by_cases hv : cur < v
      · cases ha : applyMigration exec st s v with
        | error e => exact ⟨[], by simp [migLoop, hp, hv, ha], by simp⟩
        | ok st2 =>
          obtain ⟨app, happ, hall⟩ := ih st2
          have hrec := applyMigration_ok ha
          refine ⟨v :: app, ?_, ?_⟩
          · simp only [migLoop, hp, hv, if_true, ha]
            rw [happ, hrec, List.append_assoc]
            rfl
          · intro w hw
            rcases List.mem_cons.mp hw with rfl | hw2
            · exact hv
            · exact hall w hw2
      · simpa [migLoop, hp, hv] using ih st

/-- Helper: a run that finishes without error records exactly the
parseable versions above the once-computed current version, in listing
order. -/
theorem migLoop_none_records {σ : Type} (exec : σ → String → Option σ) (cur : Int) :
    ∀ (l : List Script) (st st2 : MigStore σ),
      migLoop exec cur st l = (st2, none) →
      st2.schemaMigrations = st.schemaMigrations ++
        ((l.filterMap (fun s => parseVersion s.name)).filter (fun v => decide (cur < v))) := by
  intro l
  induction l with
  | nil =>
    intro st st2 h
    simp only [migLoop, Prod.mk.injEq] at h
    simp [← h.1]
  | cons s rest ih =>
    intro st st2 h
    cases hp : parseVersion s.name with
    | none =>
      rw [migLoop, hp] at h
      simpa [List.filterMap_cons, hp] using ih st st2 h
    | some v =>
      by_cases hv : cur < v
      · rw [migLoop, hp] at h
        simp only [hv, if_true] at h
        cases ha : applyMigration exec st s v with
        | error e => rw [ha] at h; simp at h
        | ok stNext =>
          rw [ha] at h
          have hrec := applyMigration_ok ha
          have hrest := ih stNext st2 h
          rw [hrest, hrec, List.append_assoc]
          simp [List.filterMap_cons, hp, hv]
      · rw [migLoop, hp] at h
        simp only [hv, if_false, ite_false] at h
        have hrest := ih st st2 h
        rw [hrest]
        simp [List.filterMap_cons, hp, hv]

/-- Helper: when every parseable version is at or below the current
version, the loop is a no-op that succeeds. -/
theorem migLoop_skip_all {σ : Type} (exec : σ → String → Option σ) (cur : Int) :
    ∀ (l : List Script) (st : MigStore σ),
      (∀ s ∈ l, ∀ v, parseVersion s.name = some v → ¬ cur < v) →
      migLoop exec cur st l = (st, none) := by
  intro l
  induction l with
  | nil => intro st _; rfl
  | cons s rest ih =>
    intro st hall
    cases hp : parseVersion s.name with
    | none =>
      rw [migLoop, hp]
      exact ih st (fun s2 hs2 => hall s2 (List.mem_cons_of_mem s hs2))
    | some v =>
      have hv := hall s (List.mem_cons_self s rest) v hp
      rw [migLoop, hp]
      simp only [hv, if_false, ite_false]
      exact ih st (fun s2 hs2 => hall s2 (List.mem_cons_of_mem s hs2))

/-- Helper: a member is at most the recorded maximum. -/
theorem le_maxVersion_of_mem {v : Int} : ∀ {l : List Int}, v ∈ l → v ≤ maxVersion l := by
  intro l
  induction l with
  | nil => intro h; cases h
  | cons a l ih =>
    intro h
    rcases List.mem_cons.mp h with rfl | h2
    · exact le_max_left _ _
    · exact le_trans (ih h2) (le_max_right _ _)

/-- Helper: the recorded maximum is nonnegative (COALESCE default 0). -/
theorem maxVersion_nonneg : ∀ (l : List Int), 0 ≤ maxVersion l := by
  intro l
  induction l with
  | nil => exact le_refl 0
  | cons a l ih => exact le_trans ih (le_max_right a _)

/-- Helper: appending records can only raise the recorded maximum. -/
theorem maxVersion_le_append : ∀ (l app : List Int), maxVersion l ≤ maxVersion (l ++ app) := by
  intro l app
  induction l with
  | nil => exact maxVersion_nonneg app
  | cons a l ih => exact max_le_max (le_refl a) ih

/-- Helper: after the VerifyUser update, no row still matches the
consumed token. -/
theorem matchesVerify_after_update (tok : String) (now : Nat) (w : User) :
    matchesVerify (some tok)
      (if matchesVerify (some tok) w then
        { w with verifiedAt := some now, verificationToken := none }
      else w) = false := by
  by_cases hm : matchesVerify (some tok) w
  · simp only [hm, if_true, ite_true]
    simp [matchesVerify, sqlTokEq]
  · simp only [hm, if_false, ite_false]
    exact Bool.not_eq_true _ |>.mp hm

/-!
Claim theorems.
-/

/-- C1 (counterexample): login with the correct password on an
unverified account returns the distinct message telling the user to
verify, not the generic invalid-email-or-password message a wrong
password receives, so the three password-path failures are not all
answered with the same generic AuthError message. -/
theorem login_unverified_distinct_cex :
    loginHandler cmp0 dbC1 ("a@x.com") ("pw1") =
      .httpError ("Please verify your email before logging in.") 401 ∧
    loginHandler cmp0 dbC1 ("b@x.com") ("wrong") =
      .httpError ("Invalid email or password") 401 ∧
    loginHandler cmp0 dbC1 ("a@x.com") ("pw1") ≠
      loginHandler cmp0 dbC1 ("b@x.com") ("wrong") := by
  refine ⟨rfl, rfl, ?_⟩
  decide

/-- C1 (amended): the absent-user and failed-hash-comparison cases of
the password login both fail with the same generic 401
Invalid email or password, while the unverified case fails with the
distinct 401 message Please verify your email before logging in.,
returned before any password comparison. -/
theorem login_failure_messages (compare : String → String → Bool) (db : Db)
    (email password : String) :
    (GetUserByEmail db email = none →
      loginHandler compare db email password =
        .httpError ("Invalid email or password") 401) ∧
    (∀ u, GetUserByEmail db email = some u → u.verifiedAt = none →
      loginHandler compare db email password =
        .httpError ("Please verify your email before logging in.") 401) ∧
    (∀ u, GetUserByEmail db email = some u → u.verifiedAt ≠ none →
      compare u.passwordHash password = false →
      loginHandler compare db email password =
        .httpError ("Invalid email or password") 401) := by
  refine ⟨?_, ?_, ?_⟩
  · intro h
    simp [loginHandler, h]
  · intro u hu hv
    simp [loginHandler, hu, hv]
  · intro u hu hv hc
    cases hva : u.verifiedAt with
    | none => exact absurd hva hv
    | some t => simp [loginHandler, hu, hva, hc]

/-- C1 (witness): a concrete absent-user login receives the generic
message. -/
theorem login_failure_messages_witness :
    loginHandler cmp0 dbC1 ("nosuch@x.com") ("pw") =
      .httpError ("Invalid email or password") 401 :=
  (login_failure_messages cmp0 dbC1 ("nosuch@x.com") ("pw")).1 rfl

/-- C2 (counterexample): after a concrete signup, the users table holds
the raw verification token value itself, so the token is not persisted
only as a hash. -/
theorem raw_token_stored_cex :
    ((signupHandler bhash0 emptyDb ("a@x.com") ("pw") ("tok123")).2.users.any
      (fun u => u.verificationToken == some ("tok123"))) = true := rfl

/-- C2 (amended): every user created through the signup path is
persisted with its raw verification token stored as-is in
users.verification_token (the OAuth create path passes the raw token to
CreateUser in the same way); the token is not hashed before storage. -/
theorem signup_stores_raw_token (bhash : String → String) (db : Db)
    (email password rawToken : String) (body : String) (db2 : Db)
    (h : signupHandler bhash db email password rawToken = (.okPage body, db2)) :
    ∃ u ∈ db2.users, u.verificationToken = some rawToken := by
  unfold signupHandler at h
  cases hc : CreateUser db email (bhash password) (some rawToken) with
  | error e =>
    rw [hc] at h
    simp at h
  | ok p =>
    rw [hc] at h
    dsimp only at h
    rw [Prod.mk.injEq] at h
    obtain ⟨-, hdb⟩ := h
    have hc2 : CreateUser db email (bhash password) (some rawToken) = .ok (p.1, p.2) := by
      rw [hc]
    obtain ⟨hvt, husers⟩ := CreateUser_ok hc2
    refine ⟨p.1, ?_, hvt⟩
    rw [← hdb, husers]
    simp

/-- C2 (witness): the concrete signup stores the raw token tok123. -/
theorem signup_stores_raw_token_witness :
    ∃ u ∈ (signupHandler bhash0 emptyDb ("a@x.com") ("pw") ("tok123")).2.users,
      u.verificationToken = some ("tok123") :=
  signup_stores_raw_token bhash0 emptyDb ("a@x.com") ("pw") ("tok123")
    ("User created! Please check your email to verify your account.")
    (signupHandler bhash0 emptyDb ("a@x.com") ("pw") ("tok123")).2 rfl

/-- C3: when the transaction of a migration the runner decided to apply
fails — its statements error or the version insert errors — the store is
left exactly as it was before that script (no schema effect and no
version record from it), the rest of the scripts are not processed, and
the run returns the migration error. -/
theorem migration_txn_atomic {σ : Type} (exec : σ → String → Option σ)
    (cur : Int) (st : MigStore σ) (s : Script) (rest : List Script) (v : Int)
    (e : String) (hv : parseVersion s.name = some v) (hgt : cur < v)
    (hfail : applyMigration exec st s v = .error e) :
    migLoop exec cur st (s :: rest) = (st, some e) := by
  rw [migLoop, hv]
  simp only [hgt, if_true, hfail]

/-- C3 (witness): the concrete failing script 003_bad.sql aborts the run
with the store untouched and the wrapped error message. -/
theorem migration_txn_atomic_witness :
    migLoop execFailBad 0 emptyMigStore [sBad, s001] =
      (emptyMigStore, some (("error running migration ") ++ sBad.name)) :=
  migration_txn_atomic execFailBad 0 emptyMigStore sBad [s001] 3
    (("error running migration ") ++ sBad.name) rfl (by decide) rfl

/-- C4: a second run of the migration runner over the same script set is
a no-op — it applies no script, inserts no version record, and leaves
the store exactly as the first successful run left it. -/
theorem runner_idempotent {σ : Type} (exec : σ → String → Option σ)
    (st : MigStore σ) (files : List Script) (st1 : MigStore σ)
    (h : runMigrationsFS exec st files = (st1, none)) :
    runMigrationsFS exec st1 files = (st1, none) := by
  unfold runMigrationsFS runMigrations at h ⊢
  have hrec := migLoop_none_records exec (maxVersion st.schemaMigrations)
    (sortScripts files) st st1 h
  apply migLoop_skip_all
  intro s hs v hv
  rw [not_lt]
  by_cases hcur : maxVersion st.schemaMigrations < v
  · have hmemF : v ∈ (((sortScripts files).filterMap (fun s => parseVersion s.name)).filter
        (fun v => decide (maxVersion st.schemaMigrations < v))) := by
      rw [List.mem_filter]
      exact ⟨List.mem_filterMap.mpr ⟨s, hs, hv⟩, by simp [hcur]⟩
    have hmem : v ∈ st1.schemaMigrations := by
      rw [hrec]
      exact List.mem_append_right _ hmemF
    exact le_maxVersion_of_mem hmem
  · rw [not_lt] at hcur
    refine le_trans hcur ?_
    rw [hrec]
    exact maxVersion_le_append _ _

/-- C4 (witness): re-running the concrete scenario set 001_init.sql,
002_auth.sql after its successful first run changes nothing. -/
theorem runner_idempotent_witness :
    runMigrationsFS execAppend scenarioRun1.1 scenarioFiles = (scenarioRun1.1, none) :=
  runner_idempotent execAppend emptyMigStore scenarioFiles scenarioRun1.1 rfl

/-- C5: a verification token is consumed at most once — after a
successful VerifyUser call for a token, every later call with the same
token fails with the not-found error, and the verify route answers every
such failure with the one generic Invalid or expired token response. -/
theorem verifyUser_at_most_once (db : Db) (tok : String) (now : Nat)
    (r : Nat × Db) (h : VerifyUser db (some tok) now = .ok r) :
    (∀ now2, VerifyUser r.2 (some tok) now2 = .error .notFound) ∧
    (∀ now2, tok ≠ "" →
      (verifyHandler r.2 tok now2).1 = .httpError ("Invalid or expired token") 400) := by
  unfold VerifyUser at h
  cases hf : db.users.find? (matchesVerify (some tok)) with
  | none => rw [hf] at h; cases h
  | some u =>
    rw [hf] at h
    dsimp only at h
    injection h with h2
    have husers : r.2.users = db.users.map (fun w =>
        if matchesVerify (some tok) w then
          { w with verifiedAt := some now, verificationToken := none }
        else w) := by
      rw [← h2]
    have hnone : r.2.users.find? (matchesVerify (some tok)) = none := by
      rw [List.find?_eq_none]
      intro w' hw'
      rw [husers] at hw'
      obtain ⟨w, hw, rfl⟩ := List.mem_map.mp hw'
      rw [matchesVerify_after_update]
      exact Bool.false_ne_true
    have hfail : ∀ now2, VerifyUser r.2 (some tok) now2 = .error .notFound := by
      intro now2
      unfold VerifyUser
      rw [hnone]
    refine ⟨hfail, ?_⟩
    intro now2 htok
    unfold verifyHandler
    rw [if_neg htok, hfail now2]

/-- C5 (witness): the concrete token tokA verifies once and the second
call fails with the not-found error. -/
theorem verifyUser_at_most_once_witness :
    VerifyUser (applyVerify dbC1 (some ("tokA")) 7) (some ("tokA")) 9 =
      .error .notFound := by
  have h : VerifyUser dbC1 (some ("tokA")) 7 =
      .ok (1, applyVerify dbC1 (some ("tokA")) 7) := rfl
  exact (verifyUser_at_most_once dbC1 ("tokA") 7
    (1, applyVerify dbC1 (some ("tokA")) 7) h).1 9

/-- C6 (counterexample): on the OAuth callback, when the concrete store
gained a user for the provider email between the lookup and the create,
the create fails and the handler answers 500 Failed to create user —
the losing racer surfaces an error instead of retrying as a lookup. -/
theorem oauth_conflict_cex :
    oauthCallback emptyDb dbRace ("g@x.com") ("ph") ("t1") 9 =
      .httpError ("Failed to create user") 500 dbRace := rfl

/-- C6 (amended): whenever the OAuth-callback create step fails because
the email is already present (the ConflictError of a lost
duplicate-create race), the handler performs no retry lookup and
responds 500 Failed to create user to the caller. -/
theorem oauth_conflict_surfaces_error (db0 db1 : Db) (gEmail pwHash tok : String)
    (now : Nat) (h0 : GetUserByEmail db0 gEmail = none)
    (h1 : ∃ u ∈ db1.users, u.email = gEmail) :
    oauthCallback db0 db1 gEmail pwHash tok now =
      .httpError ("Failed to create user") 500 db1 := by
  have hany : (db1.users.any (fun u => decide (u.email = gEmail))) = true := by
    rw [List.any_eq_true]
    obtain ⟨u, hu, he⟩ := h1
    exact ⟨u, hu, by simp [he]⟩
  have hc : CreateUser db1 gEmail pwHash (some tok) = .error .conflict := by
    unfold CreateUser
    rw [if_pos hany]
  unfold oauthCallback
  rw [h0]
  dsimp only
  rw [hc]

/-- C6 (witness): the amended statement at the concrete race. -/
theorem oauth_conflict_surfaces_error_witness :
    oauthCallback emptyDb dbRace ("g@x.com") ("ph") ("t1") 9 =
      .httpError ("Failed to create user") 500 dbRace :=
  oauth_conflict_surfaces_error emptyDb dbRace ("g@x.com") ("ph") ("t1") 9 rfl
    ⟨⟨1, "g@x.com", "h1", none, some 3⟩, by decide, rfl⟩

/-- C7: a session inserted by establish validates at every time strictly
before its expiry (given the owning user row the lookup joins against),
never validates after destroy, and — for any store whatsoever — a
session lookup only ever returns rows whose expiry is strictly in the
future, so an expired row never validates even while still stored. -/
theorem session_lifecycle (hashFn : String → String) (db : Db) (userId : Nat)
    (rawToken : String) (now lifetime : Nat) (db2 : Db)
    (hest : establish hashFn db userId rawToken now lifetime = .ok db2) :
    (∀ t u, t < now + lifetime →
      db2.users.find? (fun w => w.id = userId) = some u →
      validate hashFn db2 rawToken t =
        some (⟨hashFn rawToken, userId, now + lifetime⟩, u.email)) ∧
    (∀ t, validate hashFn (destroy hashFn db2 rawToken) rawToken t = none) ∧
    (∀ db3 h t r, GetSession db3 h t = some r → t < r.1.expiry) := by
  unfold establish CreateSession at hest
  split at hest
  · simp at hest
  case isFalse hcond =>
  injection hest with hdb2
  subst hdb2
  have hnotin : ∀ x ∈ db.sessions, x.tokenHash ≠ hashFn rawToken := by
    intro x hx hxe
    apply hcond
    rw [List.any_eq_true]
    exact ⟨x, hx, by simp [hxe]⟩
  refine ⟨?_, ?_, ?_⟩
  · intro t u ht hu
    have hall : ∀ x ∈ db.sessions,
        (decide (x.tokenHash = hashFn rawToken ∧ t < x.expiry)) = false := by
      intro x hx
      simp [hnotin x hx]
    have hpS : (decide ((⟨hashFn rawToken, userId, now + lifetime⟩ : Session).tokenHash =
        hashFn rawToken ∧ t < (⟨hashFn rawToken, userId, now + lifetime⟩ : Session).expiry)) = true := by
      simp [ht]
    have hfind : ((db.sessions ++ [(⟨hashFn rawToken, userId, now + lifetime⟩ : Session)]).find?
        (fun s => decide (s.tokenHash = hashFn rawToken ∧ t < s.expiry))) =
        some (⟨hashFn rawToken, userId, now + lifetime⟩ : Session) := by
      rw [find?_append_of_none _ _ _ hall, List.find?_singleton]
      simp [hpS, ht]
    dsimp only at hu
    simp only [validate, GetSession, hfind]
    dsimp only
    rw [hu]
    rfl
  · intro t
    have hfind2 : (((db.sessions ++ [(⟨hashFn rawToken, userId, now + lifetime⟩ : Session)]).filter
        (fun s => decide (s.tokenHash ≠ hashFn rawToken))).find?
        (fun s => decide (s.tokenHash = hashFn rawToken ∧ t < s.expiry))) = none := by
      rw [List.find?_eq_none]
      intro x hx
      have hxne : x.tokenHash ≠ hashFn rawToken := by
        have hm := (List.mem_filter.mp hx).2
        simpa using hm
      simp [hxne]
    simp only [validate, destroy, DeleteSession, GetSession]
    rw [hfind2]
  · intro db3 h t r hr
    unfold GetSession at hr
    cases hf : db3.sessions.find? (fun s => decide (s.tokenHash = h ∧ t < s.expiry)) with
    | none => rw [hf] at hr; cases hr
    | some s =>
      rw [hf] at hr
      dsimp only at hr
      cases hu : db3.users.find? (fun u => u.id = s.userId) with
      | none => rw [hu] at hr; cases hr
      | some u =>
        rw [hu] at hr
        injection hr with hr2
        have hps := List.find?_some hf
        rw [← hr2]
        exact (of_decide_eq_true hps).2

/-- C7 (witness): the concrete session established at time 10 with
lifetime 24 validates at time 11 and no longer validates after
destroy. -/
theorem session_lifecycle_witness :
    validate hashFn0 dbSess2 ("raw") 11 =
      some (⟨hashFn0 ("raw"), 2, 34⟩, "b@x.com") ∧
    validate hashFn0 (destroy hashFn0 dbSess2 ("raw")) ("raw") 11 = none := by
  have h := session_lifecycle hashFn0 dbSess 2 ("raw") 10 24 dbSess2 rfl
  exact ⟨h.1 11 uVerified (by decide) rfl, h.2.1 11⟩

/-- C8 (counterexample): with scripts 2_b.sql and 10_a.sql the runner
applies version 10 before version 2 — the embedded directory listing is
byte-lexicographic by file name, so unpadded numeric prefixes are not
processed in ascending numeric order. -/
theorem runner_order_cex :
    (runMigrationsFS execAppend emptyMigStore [f2, f10]).1.schemaMigrations = [10, 2] ∧
    isAscending (runMigrationsFS execAppend emptyMigStore [f2, f10]).1.schemaMigrations = false :=
  ⟨rfl, rfl⟩

/-- C8 (amended): the runner processes candidate scripts in ascending
file-name (byte-lexicographic) order — which coincides with numeric
order exactly when version prefixes are zero-padded to equal width, as
with 001_... and 002_... — and a successful run appends to
schema_migrations exactly the parseable leading versions that exceed the
maximum recorded version (default 0), in that listing order, silently
ignoring scripts without a parseable leading numeric token. -/
theorem runner_applies_filtered {σ : Type} (exec : σ → String → Option σ)
    (st : MigStore σ) (files : List Script) (st2 : MigStore σ)
    (h : runMigrationsFS exec st files = (st2, none)) :
    st2.schemaMigrations = st.schemaMigrations ++
      (((sortScripts files).filterMap (fun s => parseVersion s.name)).filter
        (fun v => decide (maxVersion st.schemaMigrations < v))) := by
  unfold runMigrationsFS runMigrations at h
  exact migLoop_none_records exec (maxVersion st.schemaMigrations) (sortScripts files) st st2 h

/-- C8 (witness): from a fresh store, the scenario scripts 001_init.sql
and 002_auth.sql leave exactly the records 1 and 2. -/
theorem runner_applies_filtered_witness :
    scenarioRun1.1.schemaMigrations = [1, 2] := by
  have h := runner_applies_filtered execAppend emptyMigStore scenarioFiles scenarioRun1.1 rfl
  exact h.trans (by decide)

/-- C9: after the migration runner completes on the repository's
migration set, the persisted layout contains a users table with id,
unique email, password_hash, and nullable verification_token and
verified_at; a sessions table keyed by token_hash with a cascading
user_id foreign key to users and an expiry; a password_reset_tokens
table of the same shape; and a schema_migrations table keyed by version
with applied_at. -/
theorem persisted_schema_meets_spec :
    gighubMigrationRun.2 = none ∧
    tableCheck gighubSchema ("users")
      (fun t => hasCol t ("id") && hasUniqueCol t ("email") && hasCol t ("password_hash")
        && hasNullableCol t ("verification_token") && hasNullableCol t ("verified_at")) = true ∧
    tableCheck gighubSchema ("sessions")
      (fun t => hasPKCol t ("token_hash") && hasCascadeFK t ("user_id") ("users")
        && hasCol t ("expiry")) = true ∧
    tableCheck gighubSchema ("password_reset_tokens")
      (fun t => hasPKCol t ("token_hash") && hasCascadeFK t ("user_id") ("users")
        && hasCol t ("expiry")) = true ∧
    tableCheck gighubSchema ("schema_migrations")
      (fun t => hasPKCol t ("version") && hasCol t ("applied_at")) = true :=
  ⟨rfl, rfl, rfl, rfl, rfl⟩

/-- C10: whatever the outcome of a run, every version recorded
afterwards was either already recorded before the run or strictly
exceeds the maximum recorded at the start — a gap version at or below
the recorded maximum is never applied or back-filled. -/
theorem runner_never_backfills {σ : Type} (exec : σ → String → Option σ)
    (st : MigStore σ) (files : List Script) (st2 : MigStore σ) (res : Option String)
    (h : runMigrationsFS exec st files = (st2, res)) :
    ∀ v ∈ st2.schemaMigrations,
      v ∈ st.schemaMigrations ∨ maxVersion st.schemaMigrations < v := by
  unfold runMigrationsFS runMigrations at h
  obtain ⟨app, happ, hall⟩ := migLoop_records exec (maxVersion st.schemaMigrations)
    (sortScripts files) st
  intro v hv
  rw [h] at happ
  dsimp only at happ
  rw [happ] at hv
  rcases List.mem_append.mp hv with h1 | h2
  · exact Or.inl h1
  · exact Or.inr (hall v h2)

/-- C10 (witness): with recorded maximum 5 and the scenario scripts
(versions 1 and 2), the run back-fills nothing: every recorded version
is old or above 5. -/
theorem runner_never_backfills_witness :
    (5 : Int) ∈ migStoreV5.schemaMigrations ∨
      maxVersion migStoreV5.schemaMigrations < 5 :=
  runner_never_backfills execAppend migStoreV5 scenarioFiles migStoreV5 none rfl 5 (by decide)

end Gighub
